import Mathlib

/-!
# Verification of the `obs_layer_sorsimple_mbaas` extraction / rule core

Shallow embedding of the repository's path-resolution utilities
(`common/utils/jmespath.py`), rule engine (`domain/rules/engine.py`),
strategy factory (`common/factories/strategy_factory.py`), SQL parameter
extraction (`application/services/parameter_extraction_service.py`) and
entity builder (`application/builders/entity_builders.py`), together with
theorems settling the specification claims about them.

Python JSON values (dict / list / str / int / bool / None) are embedded as
the inductive type `Json`; Python `None` and JSON `null` are the same
value in Python and are both embedded as `Json.null`.  Python dicts are
embedded as insertion-ordered association lists (`List (String × Json)`);
keys of dicts obtained from parsed JSON are unique.  Dotted JMESPath
query strings are embedded post-`split('.')`, as lists of segments.
-/

namespace ObsLayer

/-- Embedded Python/JSON value.  Numbers are embedded as integers (the
configuration and event values relevant to the claims are integers and
strings). -/
inductive Json where
  | null : Json
  | bool (b : Bool) : Json
  | num (n : Int) : Json
  | str (s : String) : Json
  | arr (xs : List Json) : Json
  | obj (fields : List (String × Json)) : Json
deriving Repr

namespace Json

/-- `type(x).__name__` for an embedded Python value. -/
def pyTypeName : Json → String
  | .null => "NoneType"
  | .bool _ => "bool"
  | .num _ => "int"
  | .str _ => "str"
  | .arr _ => "list"
  | .obj _ => "dict"

/-- Python truthiness (`bool(x)`) of an embedded value. -/
def pyTruthy : Json → Bool
  | .null => false
  | .bool b => b
  | .num n => n != 0
  | .str s => !(s = "")
  | .arr xs => !xs.isEmpty
  | .obj fs => !fs.isEmpty

/-- Python falsiness (`not x`). -/
def pyFalsy (j : Json) : Bool := !j.pyTruthy

mutual

/-- Python `==` on embedded values.  `True == 1` and `False == 0` hold in
Python; values of unrelated types compare unequal (no exception); dicts
compare by key set (here: both inclusions on association lists). -/
def pyEq (a b : Json) : Bool :=
  match a, b with
  | .null, .null => true
  | .bool b, .bool c => b == c
  | .bool b, .num n => (if b then (1 : Int) else 0) == n
  | .num n, .bool b => n == (if b then (1 : Int) else 0)
  | .num n, .num m => n == m
  | .str s, .str t => s == t
  | .arr xs, .arr ys => pyEqList xs ys
  | .obj fs, .obj gs => pyEqObj fs gs && pyEqObj gs fs
  | _, _ => false
termination_by sizeOf a + sizeOf b
decreasing_by all_goals (simp_wf; try omega)

/-- Elementwise Python `==` on lists. -/
def pyEqList (l₁ l₂ : List Json) : Bool :=
  match l₁, l₂ with
  | [], [] => true
  | x :: xs, y :: ys => pyEq x y && pyEqList xs ys
  | _, _ => false
termination_by sizeOf l₁ + sizeOf l₂
decreasing_by all_goals (simp_wf; try omega)

/-- One inclusion of Python dict equality: every binding of the first
dict is matched by the first binding for that key in the second. -/
def pyEqObj (l₁ l₂ : List (String × Json)) : Bool :=
  match l₁, l₂ with
  | [], _ => true
  | (k, v) :: fs, gs => pyEqFind k v gs && pyEqObj fs gs
termination_by sizeOf l₁ + sizeOf l₂
decreasing_by all_goals (simp_wf; try omega)

/-- Compare `v` with the first binding for `k` in the dict (false when
the key is absent). -/
def pyEqFind (k : String) (v : Json) (l : List (String × Json)) : Bool :=
  match l with
  | [] => false
  | (k', w) :: gs => if k' = k then pyEq v w else pyEqFind k v gs
termination_by sizeOf v + sizeOf l
decreasing_by all_goals (simp_wf; try omega)

end

/-- Is this value the `"FIELD_NOT_FOUND"` sentinel string (the Python
comparison `x == "FIELD_NOT_FOUND"`)? -/
def isFNF : Json → Bool
  | .str s => s = "FIELD_NOT_FOUND"
  | _ => false

end Json

/-- The `"FIELD_NOT_FOUND"` sentinel value used by `utils/jmespath.py`. -/
def FNF : Json := Json.str "FIELD_NOT_FOUND"

/-- First-occurrence lookup in an insertion-ordered dict
(`d[k]` / `d.get(k)` on a Python dict; keys of dicts parsed from JSON are
unique, so the first occurrence is the only occurrence). -/
def lookupD (k : String) : List (String × Json) → Option Json
  | [] => none
  | (k', v) :: t => if k' = k then some v else lookupD k t

/-- Python `k in d` for a dict. -/
def memD (k : String) (d : List (String × Json)) : Bool := (lookupD k d).isSome

/-! ### Python string primitives

Character-list implementations of the Python string operations the code
uses (`split`, `in`, `isdigit`, `int`, `lower`, `strip`), structurally
recursive so that concrete runs reduce definitionally. -/

/-- `str.split(sep)` on character lists (`"".split(sep) == [""]`). -/
def splitOnChar (sep : Char) : List Char → List (List Char)
  | [] => [[]]
  | c :: rest =>
    let r := splitOnChar sep rest
    if c = sep then [] :: r
    else
      match r with
      | h :: t => (c :: h) :: t
      | [] => [[c]]

/-- `str.split(sep)` yielding strings. -/
def pyStrSplit (s : String) (sep : Char) : List String :=
  (splitOnChar sep s.toList).map List.asString

/-- `sep in s` for a character. -/
def pyStrContains (s : String) (sep : Char) : Bool := s.toList.contains sep

/-- `str.isdigit()`. -/
def pyIsDigitStr (s : String) : Bool := !s.toList.isEmpty && s.toList.all Char.isDigit

/-- `int(s)` on an all-digit string. -/
def pyParseNat (s : String) : Nat :=
  s.toList.foldl (fun a c => a * 10 + (c.toNat - '0'.toNat)) 0

/-- ASCII `str.lower()` (strategy names are ASCII). -/
def pyLower (s : String) : String :=
  (s.toList.map (fun c =>
    if 'A' ≤ c && c ≤ 'Z' then Char.ofNat (c.toNat + 32) else c)).asString

/-- `str.strip()`: drop leading and trailing whitespace. -/
def pyStrip (s : String) : String :=
  ((s.toList.dropWhile Char.isWhitespace).reverse.dropWhile Char.isWhitespace).reverse.asString

/-- Is the value exactly `null` (`result is None` in Python)? -/
def Json.isNull : Json → Bool
  | .null => true
  | _ => false

/-! ## `common/utils/jmespath.py` — path analysis and extraction

A caller-supplied query is a dotted path with no index syntax
(spec §3: "No array-index syntax is written by callers"), embedded
post-`split('.')` as `List String`.  The corrected queries that the code
itself rebuilds may carry explicit `[0]` indices (`f"{part}[0]"`); those
are embedded as lists of `Seg`. -/

/-- One segment of a rebuilt JMESPath query: a field name, optionally
carrying the explicit first-element index `[0]` (the only index the code
ever writes). -/
structure Seg where
  name : String
  indexed : Bool
deriving Repr, DecidableEq

/-- `Seg` rendered back to its Python string form. -/
def Seg.toStr (s : Seg) : String := s.name ++ (if s.indexed then "[0]" else "")

/-- JMESPath field access: `name` applied to a value.  On an object it
returns the field (or `null` when absent); on anything else (arrays,
scalars, `null`) it returns `null`. -/
def jfield (k : String) : Json → Json
  | .obj fs => (lookupD k fs).getD Json.null
  | _ => .null

/-- JMESPath index access `[0]`: first element of an array, `null` on an
out-of-range index or a non-array. -/
def jindex0 : Json → Json
  | .arr (x :: _) => x
  | _ => .null

/-- `jmespath.search` on a plain dotted path (no indices):
successive field accesses. -/
def jsearchPlain (segs : List String) (j : Json) : Json :=
  segs.foldl (fun cur s => jfield s cur) j

/-- `jmespath.search` on a rebuilt path whose segments may carry a `[0]`
index. -/
def jsearchSegs (segs : List Seg) (j : Json) : Json :=
  segs.foldl (fun cur s =>
    let v := jfield s.name cur
    if s.indexed then jindex0 v else v) j

/-! ### `get_type_at_each_level` (`jmespath.py` lines 56–150) -/

/-- A key of the `type_at_levels` dict.  `plain base dup` is the
`_create_unique_key` result (`base` or `f"{base}_{i}"`); `proj prefix
child` is a list-projection key `f"{'.'.join(prefix)}[*].{child}"`. -/
inductive TKey where
  | plain (base : String) (dup : Option Nat)
  | proj (prefixSegs : List String) (child : String)
deriving Repr, DecidableEq

/-- The Python string a `TKey` stands for. -/
def TKey.toStr : TKey → String
  | .plain base none => base
  | .plain base (some i) => base ++ "_" ++ toString i
  | .proj parent child => String.intercalate "." parent ++ "[*]." ++ child

/-- A value of the `type_at_levels` dict: a `type(x).__name__` string, the
`"list projection"` marker, the `"FIELD_NOT_FOUND"` marker, or a
`f"Cannot navigate further: {type}"` message. -/
inductive TVal where
  | tname (s : String)
  | listProjection
  | fnf
  | cannotNavigate (tyName : String)
deriving Repr, DecidableEq

/-- The insertion-ordered `type_at_levels` dict. -/
abbrev TMap := List (TKey × TVal)

/-- Python dict assignment `m[k] = v`: overwrite in place when the key
exists, append otherwise. -/
def tmapSet (k : TKey) (v : TVal) : TMap → TMap
  | [] => [(k, v)]
  | (k', v') :: t => if k' = k then (k, v) :: t else (k', v') :: tmapSet k v t

/-- `PathAnalyzer._create_unique_key`: disambiguate keys that occur more
than once in the full path. -/
def createUniqueKey (key : String) (index : Nat) (keys : List String) : TKey :=
  if keys.count key > 1 then .plain key (some index) else .plain key none

/-- The scan inside `PathAnalyzer._handle_list_navigation`: the first list
element that is a dict containing `key`, and its value there. -/
def findFirstWithKey (key : String) : List Json → Option Json
  | [] => none
  | .obj fs :: rest =>
    match lookupD key fs with
    | some v => some v
    | none => findFirstWithKey key rest
  | _ :: rest => findFirstWithKey key rest

/-- `PathAnalyzer._handle_list_navigation`: returns
(new event, found type, list-projection key). -/
def handleListNavigation (xs : List Json) (key : String) (pathSoFar : List String) :
    Json × TVal × TKey :=
  let projKey := TKey.proj pathSoFar.dropLast key
  match findFirstWithKey key xs with
  | some v => (v, .tname v.pyTypeName, projKey)
  | none => (FNF, .fnf, projKey)

/-- `PathAnalyzer._handle_dict_navigation`: returns (new event, found
type). -/
def handleDictNavigation (fs : List (String × Json)) (key : String) : Json × TVal :=
  match lookupD key fs with
  | some v => (v, .tname v.pyTypeName)
  | none => (FNF, .fnf)

/-- `_process_list_event`. -/
def processListEvent (xs : List Json) (key : String) (keyId : TKey)
    (pathSoFar : List String) (acc : TMap) : Json × TMap :=
  let r := handleListNavigation xs key pathSoFar
  if r.1.isFNF then (FNF, tmapSet keyId .fnf acc)
  else (r.1, tmapSet keyId r.2.1 (tmapSet r.2.2 .listProjection acc))

/-- `_process_dict_event`. -/
def processDictEvent (fs : List (String × Json)) (key : String) (keyId : TKey)
    (acc : TMap) : Json × TMap :=
  let r := handleDictNavigation fs key
  if r.1.isFNF then (FNF, tmapSet keyId .fnf acc)
  else (r.1, tmapSet keyId r.2 acc)

/-- `_process_event_by_type`: dispatch on the runtime type of the current
node.  The catch-all branch records a "Cannot navigate further" message
and returns Python `None` (embedded `null`). -/
def processEventByType (cur : Json) (key : String) (keyId : TKey)
    (pathSoFar : List String) (acc : TMap) : Json × TMap :=
  match cur with
  | .arr xs => processListEvent xs key keyId pathSoFar acc
  | .obj fs => processDictEvent fs key keyId acc
  | _ => (Json.null, tmapSet keyId (.cannotNavigate cur.pyTypeName) acc)

/-- The loop guard in `get_type_at_each_level`:
`current_event is None or current_event == "FIELD_NOT_FOUND"`. -/
def navStopped (j : Json) : Bool := j.isNull || j.isFNF

/-- The `for i, key in enumerate(keys)` loop of `get_type_at_each_level`,
carrying the loop state (remaining keys, index, current event, path so
far, accumulated map). -/
def gteLoop (allKeys : List String) : List String → Nat → Json → List String → TMap → TMap
  | [], _, _, _, acc => acc
  | key :: rest, i, cur, pathSoFar, acc =>
    if navStopped cur then acc
    else
      let keyId := createUniqueKey key i allKeys
      let pathSoFar' := pathSoFar ++ [key]
      let r := processEventByType cur key keyId pathSoFar' acc
      gteLoop allKeys rest (i + 1) r.1 pathSoFar' r.2

/-- `get_type_at_each_level(event, query)`.  The guard
`if not event or not query: return {}` embeds the empty query string as
the empty segment list. -/
def getTypeAtEachLevel (event : Json) (keys : List String) : TMap :=
  if event.pyFalsy || keys.isEmpty then []
  else gteLoop keys keys 0 event [] []

/-! ### `construct_jmespath_query` (`jmespath.py` lines 152–249) -/

/-- The `list_projections` dict: `'.'.join(prefix)` parent string (kept in
segment form) mapped to its projected children, in insertion order. -/
abbrev ProjMap := List (List String × List String)

/-- Append `child` to the children recorded for `parent` (insert the
parent first if absent), as `QueryBuilder._extract_list_projections`
does. -/
def projAdd (parent : List String) (child : String) : ProjMap → ProjMap
  | [] => [(parent, [child])]
  | (p, cs) :: t =>
    if p = parent then (p, cs ++ [child]) :: t else (p, cs) :: projAdd parent child t

/-- `QueryBuilder._extract_list_projections`: keys whose value is
`"list projection"`, split on `"[*]."` into (parent, child).  Only
projection keys carry that value, and they split into exactly two
parts. -/
def extractListProjections (tl : TMap) : ProjMap :=
  tl.foldl (fun acc p =>
    match p with
    | (.proj parent child, .listProjection) => projAdd parent child acc
    | _ => acc) []

/-- `QueryBuilder._filter_valid_keys` keeps keys whose value contains none
of `'not found'`, `'Cannot navigate'`, `'list projection'`.  Type names
never contain those substrings, and — the comparison being
case-sensitive — neither does `"FIELD_NOT_FOUND"`. -/
def tvalValid : TVal → Bool
  | .tname _ => true
  | .fnf => true
  | .listProjection => false
  | .cannotNavigate _ => false

/-- `QueryBuilder._filter_valid_keys`. -/
def filterValidKeys (tl : TMap) : List TKey :=
  (tl.filter (fun p => tvalValid p.2)).map (·.1)

/-- The per-key step of `QueryBuilder._parse_key_indices`:
`('_' in key and key.split('_')[-1].isdigit())` selects
`(key.split('_')[0], int(key.split('_')[-1]))`, otherwise `(key, 0)`. -/
def parseKeyIndex (s : String) : String × Nat :=
  let parts := pyStrSplit s '_'
  if pyStrContains s '_' && pyIsDigitStr (parts.getLastD "") then
    (parts.headD "", pyParseNat (parts.getLastD ""))
  else (s, 0)

/-- Stable ascending insertion by the numeric index, matching Python's
stable `sorted(key_indices, key=lambda x: x[1])`: an element is placed
before every element with a strictly larger index and after all earlier
elements with an index less than or equal to its own. -/
def insertAscIdx (x : String × Nat) : List (String × Nat) → List (String × Nat)
  | [] => [x]
  | y :: ys => if y.2 < x.2 then y :: insertAscIdx x ys else x :: y :: ys

/-- `QueryBuilder._parse_key_indices`. -/
def parseKeyIndices (keys : List TKey) : List (String × Nat) :=
  (keys.map (fun k => parseKeyIndex k.toStr)).foldr insertAscIdx []

/-- The inner replacement of `QueryBuilder._build_path_with_indices`: for
every projection whose children contain `base_key` and whose parent
string occurs in the current path, overwrite the first occurrence of the
parent with `f"{parent}[0]"`.  (A parent of two or more segments contains
a dot and never equals a single-segment path entry.) -/
def applyProjs (baseKey : String) (projs : ProjMap) (path : List Seg) : List Seg :=
  projs.foldl (fun cur pr =>
    if pr.2.contains baseKey then
      let parentStr := String.intercalate "." pr.1
      match (cur.map Seg.toStr).indexOf? parentStr with
      | some i => cur.set i ⟨parentStr, true⟩
      | none => cur
    else cur) path

/-- The first loop of `QueryBuilder._build_path_with_indices`. -/
def buildLoop1 (keyIndices : List (String × Nat)) (projs : ProjMap) : List Seg :=
  keyIndices.foldl (fun cur ki => applyProjs ki.1 projs cur ++ [⟨ki.1, false⟩]) []

/-- The second loop of `QueryBuilder._build_path_with_indices`: index any
remaining part that is itself a projection parent
(`if part in list_projections and '[' not in part`). -/
def buildLoop2 (projs : ProjMap) (path : List Seg) : List Seg :=
  path.map (fun s =>
    if !s.indexed && projs.any (fun pr => String.intercalate "." pr.1 = s.name) then
      ⟨s.name, true⟩
    else s)

/-- `construct_jmespath_query` (`if not type_at_levels: return ""`; the
empty string result is the empty segment list). -/
def constructJmespathQuery (tl : TMap) : List Seg :=
  if tl.isEmpty then []
  else
    let projs := extractListProjections tl
    let validKeys := filterValidKeys tl
    let keyIndices := parseKeyIndices validKeys
    buildLoop2 projs (buildLoop1 keyIndices projs)

/-! ### `ManualIndexingNavigator` (`jmespath.py` lines 251–329) -/

/-- `_can_navigate_dict`. -/
def canNavigateDict (cur : Json) (part : String) : Bool :=
  match cur with
  | .obj fs => memD part fs
  | _ => false

/-- `_can_navigate_list`. -/
def canNavigateList : Json → Bool
  | .arr xs => !xs.isEmpty
  | _ => false

/-- `_can_access_list_element`: the first element exists, is a dict and
contains `part`. -/
def canAccessListElement (xs : List Json) (part : String) : Bool :=
  match xs with
  | .obj fs :: _ => memD part fs
  | _ => false

/-- `_add_index_to_previous_part`: `modified_parts[-1] += "[0]"` when the
list is non-empty.  (The previous part is never already indexed when this
runs, so setting the flag matches the string append.) -/
def addIndexToPrev (parts : List Seg) : List Seg :=
  match parts.getLast? with
  | none => parts
  | some lastSeg => parts.dropLast ++ [⟨lastSeg.name, true⟩]

/-- The loop body of `ManualIndexingNavigator.navigate_query_path`. -/
def navLoop : List String → Json → List Seg → List Seg
  | [], _, acc => acc
  | part :: rest, cur, acc =>
    if canNavigateDict cur part then
      navLoop rest (jfield part cur) (acc ++ [⟨part, false⟩])
    else if canNavigateList cur then
      let acc' := addIndexToPrev acc
      match cur with
      | .arr xs =>
        if canAccessListElement xs part then
          navLoop rest (jfield part (jindex0 (Json.arr xs))) (acc' ++ [⟨part, false⟩])
        else acc'
      | _ => acc'
    else acc

/-- `ManualIndexingNavigator.navigate_query_path`. -/
def navigateQueryPath (queryParts : List String) (event : Json) : List Seg :=
  navLoop queryParts event []

/-! ### `DataExtractor` (`jmespath.py` lines 331–425) -/

/-- `DataExtractor._extract_direct` (strategy 1): the original query run
as written.  (For a plain dotted path `jmespath.search` raises no parse
or type error.) -/
def extractDirect (segs : List String) (event : Json) : Json :=
  jsearchPlain segs event

/-- `DataExtractor._extract_with_structure_analysis` (strategy 2). -/
def extractWithStructureAnalysis (segs : List String) (event : Json) : Json :=
  let tl := getTypeAtEachLevel event segs
  let newQuery := constructJmespathQuery tl
  if newQuery.isEmpty then Json.null else jsearchSegs newQuery event

/-- `DataExtractor._extract_with_manual_indexing` (strategy 3), including
its `if not query or not event` guard and
`_build_and_execute_modified_query`. -/
def extractWithManualIndexing (segs : List String) (event : Json) : Json :=
  if segs.isEmpty || event.pyFalsy then Json.null
  else
    let modified := navigateQueryPath segs event
    if modified.isEmpty then Json.null else jsearchSegs modified event

/-- `DataExtractor.extract_single_field`: the `FIELD_NOT_FOUND` scan over
`type_at_levels`, then the three strategies in order, each taken when its
result `is not None`; `None` (`null`) when all fail. -/
def extractSingleField (segs : List String) (event : Json) : Json :=
  let tl := getTypeAtEachLevel event segs
  if tl.any (fun p => p.2 = TVal.fnf) then FNF
  else
    let r1 := extractDirect segs event
    if !r1.isNull then r1
    else
      let r2 := extractWithStructureAnalysis segs event
      if !r2.isNull then r2
      else
        let r3 := extractWithManualIndexing segs event
        if !r3.isNull then r3 else Json.null

/-! ## `domain/rules/engine.py` — business rules

Timestamps (`current_time`, and the `validity_period` bounds, parsed in
the source from ISO-8601 strings by `datetime.strptime(...,
"%Y-%m-%dT%H:%M:%SZ")`) are embedded as already-parsed UTC instants
(integers); the comparisons `current_time < start` / `current_time > end`
act on those instants. -/

/-- A rule condition: `{operator, field, value}`.  `field` is the dotted
path handed to `jmespath.search`, embedded split on `'.'`;
`value` is `condition.get('value')` with Python `None` (absent) embedded
as `null`. -/
structure Condition where
  operator : String
  field : List String
  value : Json
deriving Repr

/-- A `validity_period` entry: `get('start_date')` / `get('end_date')`
(`none` for an absent or empty bound, both falsy in Python). -/
structure ValidityPeriod where
  startDate : Option Int
  endDate : Option Int
deriving Repr, DecidableEq

/-- A rule action.  `calculate`/`action` name the strategy
(`action.get('calculate') or action.get('action')`), `field` is
`action['field']` (a `KeyError`, caught, when absent), and `payload`
stands for the rest of the strategy-specific configuration. -/
structure RuleAction where
  calculate : Option String
  action : Option String
  field : Option String
  payload : Json
deriving Repr

/-- A rule configuration (`BusinessRule.__init__`): `description` is
required (`self.config['description']`), `priority` is read with
`config.get('priority', 0)`, `validity_period` with `none` covering the
absent and the empty (falsy) dict. -/
structure RuleCfg where
  description : String
  priority : Option Int
  validityPeriod : Option ValidityPeriod
  conditions : List Condition
  actions : List RuleAction
deriving Repr

mutual

/-- Python's ordering comparison for `>`/`<` inside `_check_condition`'s
operator lambdas: defined between numbers and booleans, between strings,
and elementwise between lists; every other combination (`None`, dicts,
mixed types) raises a `TypeError`, which the embedding surfaces as
`Except.error`. -/
def pyCmp (a b : Json) : Except String Ordering :=
  match a, b with
  | .num n, .num m => .ok (compare n m)
  | .num n, .bool c => .ok (compare n (if c then 1 else 0))
  | .bool b, .num m => .ok (compare (if b then (1 : Int) else 0) m)
  | .bool b, .bool c => .ok (compare (if b then (1 : Int) else 0) (if c then 1 else 0))
  | .str s, .str t => .ok (compare s t)
  | .arr xs, .arr ys => pyCmpList xs ys
  | _, _ => .error "TypeError: unorderable types"
termination_by sizeOf a + sizeOf b
decreasing_by all_goals (simp_wf; try omega)

/-- Lexicographic Python list comparison. -/
def pyCmpList (l₁ l₂ : List Json) : Except String Ordering :=
  match l₁, l₂ with
  | [], [] => .ok .eq
  | [], _ :: _ => .ok .lt
  | _ :: _, [] => .ok .gt
  | x :: xs, y :: ys =>
    match pyCmp x y with
    | .ok .eq => pyCmpList xs ys
    | .ok o => .ok o
    | .error e => .error e
termination_by sizeOf l₁ + sizeOf l₂
decreasing_by all_goals (simp_wf; try omega)

end

/-- Python substring test `needle in haystack`, on character lists. -/
def isSublist (needle : List Char) : List Char → Bool
  | [] => needle.isEmpty
  | c :: t => needle.isPrefixOf (c :: t) || isSublist needle t

/-- Python's `in` for the `in`/`contains` operator lambdas:
membership in a list (by `==`), substring test on strings, key membership
in a dict; `in` on a number, boolean or `None` container raises a
`TypeError`, as does an unhashable (list/dict) member probed against a
dict or a non-string member probed against a string. -/
def pyIn (member container : Json) : Except String Bool :=
  match container with
  | .arr xs => .ok (xs.any (fun x => Json.pyEq member x))
  | .str t =>
    match member with
    | .str s => .ok (isSublist s.toList t.toList)
    | _ => .error "TypeError: in <string> requires string as left operand"
  | .obj fs =>
    match member with
    | .str s => .ok (memD s fs)
    | .arr _ => .error "TypeError: unhashable type"
    | .obj _ => .error "TypeError: unhashable type"
    | _ => .ok false
  | _ => .error "TypeError: argument is not iterable"

/-- The `try` body of `BusinessRule._check_condition`: resolve the field
with `jmespath.search` and apply the operator lambda; `Except.error`
stands for a raised exception.  An operator outside the eight-entry table
falls back to `operators.get(operator, lambda: True)` — constantly
true. -/
def checkConditionRaw (cond : Condition) (event : Json) : Except String Bool :=
  let actual := jsearchPlain cond.field event
  let expected := cond.value
  match cond.operator with
  | "exists" => .ok !actual.isNull
  | "matches_query" => .ok actual.pyTruthy
  | "equals" => .ok (Json.pyEq actual expected)
  | "not_equals" => .ok !(Json.pyEq actual expected)
  | "in" => if expected.pyTruthy then pyIn actual expected else .ok false
  | "contains" => if actual.pyTruthy then pyIn expected actual else .ok false
  | "greater_than" =>
    if actual.isNull then .ok false
    else (pyCmp actual expected).map (fun o => o = .gt)
  | "less_than" =>
    if actual.isNull then .ok false
    else (pyCmp actual expected).map (fun o => o = .lt)
  | _ => .ok true

/-- `BusinessRule._check_condition`: any exception inside the `try` body
is caught, logged and turned into `False`. -/
def checkCondition (cond : Condition) (event : Json) : Bool :=
  match checkConditionRaw cond event with
  | .ok b => b
  | .error _ => false

/-- `BusinessRule._evaluate_conditions`: the conjunction over all
conditions. -/
def evaluateConditions (cfg : RuleCfg) (event : Json) : Bool :=
  cfg.conditions.all (fun c => checkCondition c event)

/-- `BusinessRule._check_validity_period`. -/
def checkValidityPeriod (cfg : RuleCfg) (t : Int) : Bool :=
  match cfg.validityPeriod with
  | none => true
  | some vp =>
    if vp.startDate.any (fun s => t < s) then false
    else if vp.endDate.any (fun e => t > e) then false
    else true

/-- `BusinessRule.is_applicable`. -/
def isApplicable (cfg : RuleCfg) (event : Json) (t : Int) : Bool :=
  checkValidityPeriod cfg t && evaluateConditions cfg event

/-- The behaviour of one constructed strategy's
`execute(action, event, field, extensions)` call: `none` stands for a
raised exception (caught in `_execute_action`).  The engine passes the
same `self.extensions` object at every call, so extensions are folded
into the function. -/
abbrev StrategyExec := RuleAction → Json → String → Option (List (String × Json))

/-- A strategy factory as the engine sees it
(`StrategyFactory.create_strategy(action_type)`): `none` for an unknown
(or `None`) action type. -/
abbrev CreateStrategy := Option String → Option StrategyExec

/-- Python `a or b` on optional strings (`None` and `""` are falsy). -/
def pyOrStr (a b : Option String) : Option String :=
  if a.any (fun s => !(s = "")) then a else b

/-- Python dict assignment `m[k] = v` (overwrite in place, else
append). -/
def dictSet (k : String) (v : Json) : List (String × Json) → List (String × Json)
  | [] => [(k, v)]
  | (k', v') :: t => if k' = k then (k, v) :: t else (k', v') :: dictSet k v t

/-- Python `m.update(d)`: assign every binding of `d` into `m`, in
order. -/
def dictUpdate (m d : List (String × Json)) : List (String × Json) :=
  d.foldl (fun acc p => dictSet p.1 p.2 acc) m

/-- `BusinessRule._execute_action`: pick the action type
(`action.get('calculate') or action.get('action')`), create the strategy
(`None` → warning → `None`), execute it; a missing `field` key or a
raised exception also yields `None`. -/
def executeAction (createStrat : CreateStrategy) (a : RuleAction) (ev : Json) :
    Option (List (String × Json)) :=
  match a.field with
  | none => none
  | some f =>
    match createStrat (pyOrStr a.calculate a.action) with
    | none => none
    | some ex => ex a ev f

/-- `BusinessRule.apply`: run every action and merge each truthy result
dict into `results` with `results.update(result)`. -/
def applyRule (createStrat : CreateStrategy) (r : RuleCfg) (ev : Json) :
    List (String × Json) :=
  r.actions.foldl (fun results a =>
    match executeAction createStrat a ev with
    | some d => if d.isEmpty then results else dictUpdate results d
    | none => results) []

/-- `config.get('priority', 0)`, the sort key of `process_event`. -/
def rulePriority (r : RuleCfg) : Int := r.priority.getD 0

/-- Stable descending insertion: a rule is placed after every
earlier-sorted rule of priority `≥` its own and before the first rule of
strictly smaller priority. -/
def insertRuleDesc (x : RuleCfg) : List RuleCfg → List RuleCfg
  | [] => [x]
  | y :: ys =>
    if rulePriority x < rulePriority y then y :: insertRuleDesc x ys
    else x :: y :: ys

/-- `sorted(self.rules, key=lambda r: r.config.get('priority', 0),
reverse=True)` — Python's sort is stable, so equal priorities keep their
configuration order; insertion from the right realises exactly that. -/
def sortRulesDesc (l : List RuleCfg) : List RuleCfg := l.foldr insertRuleDesc []

/-- `RuleEngine.process_event` at an explicit `current_time`: sort by
priority descending, then for each applicable rule merge `rule.apply`
into the shared `results` dict with `results.update(...)`. -/
def processEvent (createStrat : CreateStrategy) (rules : List RuleCfg)
    (ev : Json) (t : Int) : List (String × Json) :=
  (sortRulesDesc rules).foldl (fun results r =>
    if isApplicable r ev t then dictUpdate results (applyRule createStrat r ev)
    else results) []

/-! ## `common/factories/strategy_factory.py` -/

/-- The strategy classes known to the factory (the three rule strategies
plus the four SQL parameter strategies).  Their constructors are
argumentless and cannot raise, so the `ConfigurationError` branch of
`create_strategy` is unreachable for them. -/
inductive StrategyClass where
  | valueExtraction
  | setValue
  | setFixedValue
  | dateTimeParameter
  | eventFieldParameter
  | entityDataParameter
  | contextValueParameter
deriving Repr, DecidableEq

/-- The factory's class-level state: the `_strategies` dict and the
`_initialized` flag. -/
structure FactoryState where
  strategies : List (String × StrategyClass)
  initialized : Bool
deriving Repr, DecidableEq

/-- Lookup in the `_strategies` dict. -/
def sfLookup (k : String) : List (String × StrategyClass) → Option StrategyClass
  | [] => none
  | (k', v) :: t => if k' = k then some v else sfLookup k t

/-- Assignment into the `_strategies` dict. -/
def sfSet (k : String) (v : StrategyClass) :
    List (String × StrategyClass) → List (String × StrategyClass)
  | [] => [(k, v)]
  | (k', v') :: t => if k' = k then (k, v) :: t else (k', v') :: sfSet k v t

/-- The `default_strategies` table of
`_initialize_default_strategies`, in source order. -/
def defaultStrategies : List (String × StrategyClass) :=
  [("extract_value", .valueExtraction),
   ("set_value", .setValue),
   ("set_fixed_value", .setFixedValue),
   ("datetime.now", .dateTimeParameter),
   ("event", .eventFieldParameter),
   ("entity", .entityDataParameter),
   ("context", .contextValueParameter)]

/-- `StrategyFactory._initialize_default_strategies`: a no-op once
`_initialized` is set; otherwise adds each default under its lowercased
name when that name is not yet registered, then sets the flag. -/
def initializeDefaultStrategies (s : FactoryState) : FactoryState :=
  if s.initialized then s
  else
    { strategies :=
        defaultStrategies.foldl (fun m p =>
          if (sfLookup (pyLower p.1) m).isSome then m else m ++ [(pyLower p.1, p.2)])
          s.strategies,
      initialized := true }

/-- `StrategyFactory.register`: ensure initialization, then assign under
the lowercased name. -/
def registerStrategy (actionType : String) (cls : StrategyClass) (s : FactoryState) :
    FactoryState :=
  let s' := initializeDefaultStrategies s
  { s' with strategies := sfSet (pyLower actionType) cls s'.strategies }

/-- `StrategyFactory.create_strategy`: ensure initialization, normalize
the name (`action_type.lower() if action_type else ""`), and return the
looked-up class (`none`, after a logged warning, when unknown).
Instantiation of the known classes cannot raise, so the result is the
class itself. -/
def createStrategyF (actionType : Option String) (s : FactoryState) :
    FactoryState × Option StrategyClass :=
  let s' := initializeDefaultStrategies s
  let normalized := match actionType with
    | some a => pyLower a
    | none => ""
  (s', sfLookup normalized s'.strategies)

/-! ## `application/services/parameter_extraction_service.py` -/

mutual

/-- `json.dumps` with Python's default separators (string escaping is
elided; no claim exercises it). -/
def jsonDumps (j : Json) : String :=
  match j with
  | .null => "null"
  | .bool b => if b then "true" else "false"
  | .num n => toString n
  | .str s => "\"" ++ s ++ "\""
  | .arr xs => "[" ++ jsonDumpsList xs ++ "]"
  | .obj fs => "\x7b" ++ jsonDumpsObj fs ++ "\x7d"
termination_by sizeOf j
decreasing_by all_goals (simp_wf; try omega)

/-- Comma-separated dump of array elements. -/
def jsonDumpsList (l : List Json) : String :=
  match l with
  | [] => ""
  | [x] => jsonDumps x
  | x :: y :: xs => jsonDumps x ++ ", " ++ jsonDumpsList (y :: xs)
termination_by sizeOf l
decreasing_by all_goals (simp_wf; try omega)

/-- Comma-separated dump of object members. -/
def jsonDumpsObj (l : List (String × Json)) : String :=
  match l with
  | [] => ""
  | [(k, v)] => "\"" ++ k ++ "\": " ++ jsonDumps v
  | (k, v) :: p :: fs => "\"" ++ k ++ "\": " ++ jsonDumps v ++ ", " ++ jsonDumpsObj (p :: fs)
termination_by sizeOf l
decreasing_by all_goals (simp_wf; try omega)

end

/-- The per-value conversion inside `_order_parameters`: dicts and lists
are serialised to a JSON string for SQL; everything else passes
through. -/
def sqlParamValue (v : Json) : Json :=
  match v with
  | .obj _ => .str (jsonDumps v)
  | .arr _ => .str (jsonDumps v)
  | _ => v

/-- Generic first-occurrence association-list lookup (for dicts whose
values are parameter configurations). -/
def lookupA {α : Type} (k : String) : List (String × α) → Option α
  | [] => none
  | (k', v) :: t => if k' = k then some v else lookupA k t

/-- `ParameterExtractionService._order_parameters`: walk
`range(len(extracted_values))`, keep `extracted_values.get(str(i))` when
it `is not None`, serialising composite values. -/
def orderParameters (extractedValues : List (String × Json)) : List Json :=
  (List.range extractedValues.length).foldl (fun ordered i =>
    match lookupD (toString i) extractedValues with
    | some v => if v.isNull then ordered else ordered ++ [sqlParamValue v]
    | none => ordered) []

/-- `ParameterExtractionService.extract_parameters`, parametrised by the
behaviour of `_extract_single_parameter(param_config, context)` for the
given context: `extractOne` returns the extracted value, with `null`
standing both for Python `None` (missing strategy, or
`result.get(placeholder)` being `None`) and for a raised exception — the
`except` branch of the loop `continue`s, which stores nothing, exactly as
the `if value is not None` guard does.  `α` is the type of one
parameter's configuration dict. -/
def extractParameters {α : Type} (extractOne : α → Json)
    (paramsConfig : List (String × α)) : List Json :=
  let extractedValues := paramsConfig.foldl (fun acc p =>
    let value := extractOne p.2
    if value.isNull then acc else dictSet p.1 value acc) ([] : List (String × Json))
  orderParameters extractedValues

/-! ## `application/builders/entity_builders.py`

Only the stages exercised by the claims are embedded: `with_event`
(including the `flatten`/`unflatten_list` round-trip of
`_unflatten_json`) and `with_session_data` (including the `tidnid`
JMESPath query, whose `join` raises a `JMESPathTypeError` whenever its
argument is not an array of strings — the jmespath library type-checks
function arguments, and a multi-select-list evaluated against `null`
yields `null`). -/

/-- Key join of `flatten_json.flatten(..., '.')`. -/
def joinKey (pre k : String) : String := if pre = "" then k else pre ++ "." ++ k

/-- Python's default recursion limit (`sys.getrecursionlimit()`), the
depth at which the Python implementation itself would fail with a
`RecursionError`; used as the recursion bound of the structure-recursive
library helpers below. -/
def pyRecursionLimit : Nat := 1000

/-- `flatten_json.flatten`: recurse into non-empty dicts and lists
(list elements keyed by their index), emit everything else — and empty
containers — as dotted-key leaves.  The `fuel` argument bounds the
recursion depth exactly as Python's interpreter recursion limit does;
it is never exhausted on the values considered. -/
def flattenFuel : Nat → String → Json → List (String × Json)
  | 0, pre, j => [(pre, j)]
  | fuel + 1, pre, j =>
    match j with
    | .obj (f :: fs) =>
      ((f :: fs).map (fun p => flattenFuel fuel (joinKey pre p.1) p.2)).flatten
    | .arr (x :: xs) =>
      (((x :: xs).zip (List.range (x :: xs).length)).map
        (fun p => flattenFuel fuel (joinKey pre (toString p.2)) p.1)).flatten
    | leaf => [(pre, leaf)]

/-- `flatten(event, '.')` (the builder always passes a dict; a flattened
empty dict is the empty dict). -/
def flattenEvent (j : Json) : List (String × Json) :=
  match j with
  | .obj fs => (fs.map (fun p => flattenFuel pyRecursionLimit (joinKey "" p.1) p.2)).flatten
  | other => flattenFuel pyRecursionLimit "" other

/-- Insert one dotted-key binding into the nested reconstruction. -/
def insertPath : List String → Json → Json → Json
  | [], v, _ => v
  | k :: rest, v, .obj fs =>
    match lookupD k fs with
    | some old => .obj (dictSet k (insertPath rest v old) fs)
    | none => .obj (fs ++ [(k, insertPath rest v (.obj []))])
  | k :: rest, v, _ => .obj [(k, insertPath rest v (.obj []))]

/-- The nested-dict reconstruction step of `flatten_json.unflatten_list`. -/
def unflattenNested (flat : List (String × Json)) : Json :=
  flat.foldl (fun acc p => insertPath (pyStrSplit p.1 '.') p.2 acc) (.obj [])

/-- Are all keys of a reconstructed dict list indices? -/
def allDigitKeys (fs : List (String × Json)) : Bool :=
  fs.all (fun p => pyIsDigitStr p.1)

/-- Ascending insertion by numeric key, for index-keyed dicts. -/
def insertByNumKey (x : String × Json) : List (String × Json) → List (String × Json)
  | [] => [x]
  | y :: ys =>
    if pyParseNat y.1 ≤ pyParseNat x.1 then y :: insertByNumKey x ys
    else x :: y :: ys

/-- Values of an index-keyed dict in ascending index order. -/
def sortByNumKey (fs : List (String × Json)) : List Json :=
  (fs.foldr insertByNumKey []).map (·.2)

/-- The list-recovery pass of `flatten_json.unflatten_list`: a non-empty
dict whose keys are all digit strings becomes a list ordered by numeric
key.  Fuel as in `flattenFuel`. -/
def listifyFuel : Nat → Json → Json
  | 0, j => j
  | fuel + 1, .obj fs =>
    let fs' := fs.map (fun p => (p.1, listifyFuel fuel p.2))
    if !fs'.isEmpty && allDigitKeys fs' then .arr (sortByNumKey fs') else .obj fs'
  | fuel + 1, .arr xs => .arr (xs.map (listifyFuel fuel))
  | _ + 1, other => other

/-- `EntityBuilder._unflatten_json`: `flatten(event, '.')` then
`unflatten_list(..., '.')` (its `except` branch cannot trigger in the
embedding). -/
def unflattenJson (event : Json) : Json :=
  listifyFuel pyRecursionLimit (unflattenNested (flattenEvent event))

/-- jmespath's notion of a false value (for `||`): `null`, `false`, and
empty strings/arrays/objects — numbers are always true. -/
def jmFalsy : Json → Bool
  | .null => true
  | .bool b => !b
  | .str s => s.isEmpty
  | .arr xs => xs.isEmpty
  | .obj fs => fs.isEmpty
  | .num _ => false

/-- jmespath `a || b`. -/
def jmOr (a b : Json) : Json := if jmFalsy a then b else a

/-- The `tidnid` query of `with_session_data`:
`(jsonPayload.dataObject.documento ||
jsonPayload.dataObject.client.documentClient) |
join('-', [tipo || type, numero || number])`.
The pipe evaluates the right side against the left result; a
multi-select-list evaluated against `null` yields `null` (the jmespath
tree interpreter returns early); `join` type-checks its second argument
and raises `JMESPathTypeError` unless it is an array of strings (the
error text is modelled). -/
def tidnidSearch (ev : Json) : Except String Json :=
  let d := jmOr (jsearchPlain ["jsonPayload", "dataObject", "documento"] ev)
                (jsearchPlain ["jsonPayload", "dataObject", "client", "documentClient"] ev)
  let args := if d.isNull then Json.null
              else Json.arr [jmOr (jfield "tipo" d) (jfield "type" d),
                             jmOr (jfield "numero" d) (jfield "number" d)]
  match args with
  | .arr xs =>
    if xs.all (fun x => match x with | .str _ => true | _ => false) then
      .ok (.str (String.intercalate "-"
        (xs.filterMap (fun x => match x with | .str s => some s | _ => none))))
    else .error "JMESPathTypeError: join expected array-string"
  | _ => .error "JMESPathTypeError: join expected array-string"

/-- The builder fields touched by the embedded stages (`reset` initial
values). -/
structure EntityBuilderState where
  sessionId : Json := .null
  tidnid : Json := .null
  eventOpt : Option Json := none
deriving Repr

/-- `EntityBuilder.with_event`. -/
def withEvent (b : EntityBuilderState) (event : Json) : EntityBuilderState :=
  { b with eventOpt := some (unflattenJson event) }

/-- The dotted path `with_session_data` reads the session id from. -/
def sessionIdPath : List String :=
  ["jsonPayload", "dataObject", "consumer", "appConsumer", "sessionId"]

/-- `EntityBuilder.with_session_data`.  `repo` is the optional repository
collaborator (`find_tidnid`, with the date argument folded in); any
exception inside the `try` — including the `JMESPathTypeError` escaping
the `tidnid` search — is re-raised as
`ValueError(f"Error al extraer datos de sesión: {e}")`. -/
def withSessionData (b : EntityBuilderState) (repo : Option (String → Json)) :
    Except String EntityBuilderState :=
  match b.eventOpt with
  | none => .error "Debe establecer el evento primero con with_event()"
  | some ev =>
    if ev.pyFalsy then .error "Debe establecer el evento primero con with_event()"
    else
      match jsearchPlain sessionIdPath ev with
      | .str s =>
        if s = "" then
          .error "Error al extraer datos de sesión: No se encontró session_id en el evento"
        else
          let sid := pyStrip s
          match tidnidSearch ev with
          | .error e => .error ("Error al extraer datos de sesión: " ++ e)
          | .ok t =>
            let t' := if t.pyFalsy then
                        match repo with
                        | some f => f sid
                        | none => t
                      else t
            .ok { b with sessionId := .str sid, tidnid := t' }
      | .null =>
        .error "Error al extraer datos de sesión: No se encontró session_id en el evento"
      | other =>
        if other.pyFalsy then
          .error "Error al extraer datos de sesión: No se encontró session_id en el evento"
        else
          .error "Error al extraer datos de sesión: AttributeError: object has no attribute strip"

/-! ## Statement-side definitions

These definitions are used to state the claims; the first is the spec's
"plain nested dictionary lookup", the others package the navigation that
`get_type_at_each_level`'s loop performs so that "the first missing
segment occurs at depth *k*" can be said precisely. -/

/-- A plain nested dictionary lookup of the path's segments in order
(the specification's reference semantics for a pure-object event). -/
def nestedLookup : List String → Json → Option Json
  | [], j => some j
  | k :: rest, .obj fs =>
    match lookupD k fs with
    | some v => nestedLookup rest v
    | none => none
  | _ :: _, _ => none

/-- One navigation step of the analysis loop (the first component of
`_process_event_by_type`): dict lookup, first-matching-element list scan
(`FIELD_NOT_FOUND` on a miss), `None` past a scalar. -/
def navStep (cur : Json) (k : String) : Json :=
  match cur with
  | .arr xs => (findFirstWithKey k xs).getD FNF
  | .obj fs => (lookupD k fs).getD FNF
  | _ => .null

/-- The current event after the analysis loop has consumed the segments
`p`, halting (as the loop does) once the cursor is `None` or
`FIELD_NOT_FOUND`. -/
def navPath (ev : Json) (p : List String) : Json :=
  p.foldl (fun cur k => if navStopped cur then cur else navStep cur k) ev

/-- "Resolution first fails at segment `k`": the segments before `k`
navigated cleanly to an object or array, and `k` is missing there (an
object without the key, or an array none of whose dict elements contains
it). -/
def missAt (cur : Json) (k : String) : Bool :=
  (match cur with | .arr _ => true | .obj _ => true | _ => false)
    && (navStep cur k).isFNF

/-- The eight operators `_check_condition`'s `operators` table
recognises. -/
def recognizedOperators : List String :=
  ["exists", "matches_query", "equals", "not_equals", "in", "contains",
   "greater_than", "less_than"]

/-- The concrete event of the specification's end-to-end scenario
(spec §8). -/
def c9Event : Json :=
  .obj [("jsonPayload", .obj [("dataObject", .obj [
    ("consumer", .obj [("appConsumer", .obj
      [("id", .str "C1"), ("sessionId", .str "S1")])]),
    ("messages", .obj [("idService", .str "SVC1")])])])]

/-! ## Helper lemmas -/

theorem lookupD_dictSet (k k' : String) (v : Json) (l : List (String × Json)) :
    lookupD k' (dictSet k v l) = if k = k' then some v else lookupD k' l := by
  induction l with
  | nil => simp [dictSet, lookupD]
  | cons p t ih =>
    obtain ⟨pk, pv⟩ := p
    by_cases hpk : pk = k
    · subst hpk
      by_cases hk' : pk = k' <;> simp [dictSet, lookupD, hk']
    · by_cases hk' : pk = k'
      · subst hk'
        have : ¬k = pk := fun h => hpk h.symm
        simp [dictSet, lookupD, hpk, this]
      · simp [dictSet, lookupD, hpk, hk', ih]

theorem dictSet_of_lookupD_none (k : String) (v : Json) (l : List (String × Json))
    (h : lookupD k l = none) : dictSet k v l = l ++ [(k, v)] := by
  induction l with
  | nil => simp [dictSet]
  | cons p t ih =>
    obtain ⟨pk, pv⟩ := p
    by_cases hpk : pk = k
    · simp [lookupD, hpk] at h
    · simp [lookupD, hpk] at h
      simp [dictSet, hpk, ih h]

theorem lookupA_mem {α : Type} (k : String) (c : α) (l : List (String × α))
    (h : lookupA k l = some c) : (k, c) ∈ l := by
  induction l with
  | nil => simp [lookupA] at h
  | cons p t ih =>
    obtain ⟨pk, pv⟩ := p
    by_cases hpk : pk = k
    · subst hpk
      simp [lookupA] at h
      subst h
      exact .head _
    · simp [lookupA, hpk] at h
      exact .tail _ (ih h)

theorem lookupA_isSome_of_mem {α : Type} (k : String) (l : List (String × α))
    (h : k ∈ l.map Prod.fst) : (lookupA k l).isSome := by
  induction l with
  | nil => simp at h
  | cons p t ih =>
    obtain ⟨pk, pv⟩ := p
    by_cases hpk : pk = k
    · simp [lookupA, hpk]
    · have hk : ¬k = pk := fun hh => hpk hh.symm
      simp [lookupA, hpk] at h ⊢
      rcases h with h | h
      · exact absurd h hk
      · exact ih (by simpa using h)

theorem lookupD_map_pair {α : Type} (f : α → Json) (k : String) (l : List (String × α)) :
    lookupD k (l.map (fun p => (p.1, f p.2))) = (lookupA k l).map f := by
  induction l with
  | nil => simp [lookupD, lookupA]
  | cons p t ih =>
    by_cases hpk : p.1 = k <;> simp [lookupD, lookupA, hpk, ih]

/-! ## C6 — validity period bounds -/

/-- C6: a rule whose `validity_period.end` lies strictly before the
evaluation instant is never applicable, whatever its conditions; a
`start` after the instant likewise makes it inapplicable; and an absent
`validity_period` (or one with both bounds absent) leaves applicability
exactly the conjunction of the conditions. -/
theorem c6_validity_period_bounds (cfg : RuleCfg) (ev : Json) (t : Int) :
    (∀ vp e, cfg.validityPeriod = some vp → vp.endDate = some e → e < t →
      isApplicable cfg ev t = false) ∧
    (∀ vp s, cfg.validityPeriod = some vp → vp.startDate = some s → t < s →
      isApplicable cfg ev t = false) ∧
    (cfg.validityPeriod = none → isApplicable cfg ev t = evaluateConditions cfg ev) ∧
    (∀ vp, cfg.validityPeriod = some vp → vp.startDate = none → vp.endDate = none →
      isApplicable cfg ev t = evaluateConditions cfg ev) := by
  refine ⟨?_, ?_, ?_, ?_⟩
  · intro vp e hvp he hlt
    unfold isApplicable checkValidityPeriod
    rw [hvp]
    by_cases hs : vp.startDate.any (fun s => decide (t < s))
    · simp [hs]
    · have he' : vp.endDate.any (fun x => decide (t > x)) = true := by
        rw [he]
        simp [Option.any]
        omega
      simp [hs, he']
  · intro vp s hvp hs hlt
    unfold isApplicable checkValidityPeriod
    rw [hvp]
    have hs' : vp.startDate.any (fun x => decide (t < x)) = true := by
      rw [hs]
      simp [Option.any]
      omega
    simp [hs']
  · intro hvp
    unfold isApplicable checkValidityPeriod
    rw [hvp]
    simp
  · intro vp hvp hs he
    unfold isApplicable checkValidityPeriod
    rw [hvp]
    simp [hs, he, Option.any]

/-- Witness for C6 at concrete inputs: a rule with no conditions and
`end_date = 5` evaluated at instant `10` is inapplicable; the same rule
without a validity period is applicable. -/
theorem c6_validity_period_bounds_witness :
    isApplicable ⟨"r", none, some ⟨none, some 5⟩, [], []⟩ (Json.obj []) 10 = false ∧
    isApplicable ⟨"r", none, some ⟨some 20, none⟩, [], []⟩ (Json.obj []) 10 = false ∧
    isApplicable ⟨"r", none, none, [], []⟩ (Json.obj []) 10 = true := by
  refine ⟨?_, ?_, ?_⟩
  · exact (c6_validity_period_bounds ⟨"r", none, some ⟨none, some 5⟩, [], []⟩
      (Json.obj []) 10).1 ⟨none, some 5⟩ 5 rfl rfl (by norm_num)
  · exact (c6_validity_period_bounds ⟨"r", none, some ⟨some 20, none⟩, [], []⟩
      (Json.obj []) 10).2.1 ⟨some 20, none⟩ 20 rfl rfl (by norm_num)
  · have h := (c6_validity_period_bounds ⟨"r", none, none, [], []⟩
      (Json.obj []) 10).2.2.1 rfl
    rw [h]
    rfl

/-! ## C7 — fail-closed condition evaluation -/

/-- C7: whenever the body of `_check_condition` raises (surfaced as
`Except.error` in the embedding), the condition evaluates to `false`:
the exception never escapes, and `_check_condition` is a total
boolean-valued function. -/
theorem c7_condition_exception_fail_closed (cond : Condition) (ev : Json) (msg : String)
    (h : checkConditionRaw cond ev = .error msg) :
    checkCondition cond ev = false := by
  unfold checkCondition
  rw [h]

/-- Witness for C7: the `contains` operator probing an integer container
raises a `TypeError`, and the condition evaluates to `false`. -/
theorem c7_condition_exception_fail_closed_witness :
    checkConditionRaw ⟨"contains", ["a"], Json.num 1⟩ (Json.obj [("a", Json.num 5)]) =
      .error "TypeError: argument is not iterable" ∧
    checkCondition ⟨"contains", ["a"], Json.num 1⟩ (Json.obj [("a", Json.num 5)]) = false :=
  ⟨rfl, c7_condition_exception_fail_closed _ _ _ rfl⟩

/-! ## C10 — unrecognized operators evaluate to true -/

/-- C10: an operator outside the eight-entry table makes the condition
evaluate to `true` (the dict-`get` default is `lambda: True`), so a rule
all of whose conditions use unrecognized operators is applicable exactly
when its validity period allows. -/
theorem c10_unknown_operator_true :
    (∀ (op : String) (f : List String) (v ev : Json), op ∉ recognizedOperators →
      checkCondition ⟨op, f, v⟩ ev = true) ∧
    (∀ (cfg : RuleCfg) (ev : Json) (t : Int),
      (∀ c ∈ cfg.conditions, c.operator ∉ recognizedOperators) →
      isApplicable cfg ev t = checkValidityPeriod cfg t) := by
  have hcond : ∀ (op : String) (f : List String) (v ev : Json), op ∉ recognizedOperators →
      checkCondition ⟨op, f, v⟩ ev = true := by
    intro op f v ev h
    simp [recognizedOperators] at h
    obtain ⟨h1, h2, h3, h4, h5, h6, h7, h8⟩ := h
    unfold checkCondition checkConditionRaw
    split <;> first | rfl | simp_all
  refine ⟨hcond, ?_⟩
  intro cfg ev t h
  unfold isApplicable
  have : evaluateConditions cfg ev = true := by
    unfold evaluateConditions
    rw [List.all_eq_true]
    intro c hc
    have := hcond c.operator c.field c.value ev (h c hc)
    simpa using this
  rw [this, Bool.and_true]

/-- Witness for C10: the unrecognized operator `frobnicate` yields a true
condition, and a rule using only it is applicable. -/
theorem c10_unknown_operator_true_witness :
    checkCondition ⟨"frobnicate", ["x"], Json.null⟩ (Json.obj []) = true ∧
    isApplicable ⟨"r", none, none, [⟨"frobnicate", ["x"], Json.null⟩], []⟩ (Json.obj []) 0 =
      checkValidityPeriod ⟨"r", none, none, [⟨"frobnicate", ["x"], Json.null⟩], []⟩ 0 := by
  constructor
  · exact c10_unknown_operator_true.1 "frobnicate" ["x"] Json.null (Json.obj [])
      (by decide)
  · exact c10_unknown_operator_true.2 ⟨"r", none, none, [⟨"frobnicate", ["x"], Json.null⟩], []⟩
      (Json.obj []) 0 (by intro c hc; simp at hc; rw [hc]; decide)

/-! ### Constructor-level evaluation lemmas -/

theorem isFNF_null : Json.null.isFNF = false := rfl

theorem isFNF_bool (b : Bool) : (Json.bool b).isFNF = false := rfl

theorem isFNF_num (n : Int) : (Json.num n).isFNF = false := rfl

theorem isFNF_str (s : String) : (Json.str s).isFNF = decide (s = "FIELD_NOT_FOUND") := rfl

theorem isFNF_arr (xs : List Json) : (Json.arr xs).isFNF = false := rfl

theorem isFNF_obj (fs : List (String × Json)) : (Json.obj fs).isFNF = false := rfl

theorem isNull_null : Json.null.isNull = true := rfl

theorem isNull_bool (b : Bool) : (Json.bool b).isNull = false := rfl

theorem isNull_num (n : Int) : (Json.num n).isNull = false := rfl

theorem isNull_str (s : String) : (Json.str s).isNull = false := rfl

theorem isNull_arr (xs : List Json) : (Json.arr xs).isNull = false := rfl

theorem isNull_obj (fs : List (String × Json)) : (Json.obj fs).isNull = false := rfl

theorem isFNF_eq_FNF (v : Json) (h : v.isFNF = true) : v = FNF := by
  cases v <;> simp [Json.isFNF] at h
  simp [FNF, h]

theorem intercalate_ab : String.intercalate "." ["a", "b"] = "a.b" := rfl

theorem indexOf_ab : List.indexOf? "a.b" ["a", "b"] = none := rfl

/-! ## C2 — list at an object position: first-element resolution -/

/-- C2 counterexample: when the first element that contains the key sits
at a later index, resolution does not return that element's field — both
index-injecting strategies only ever consult element `0`, and the manual
navigator, failing to descend by `c` into element `0`, executes the
truncated query `a.b[0]` and returns the first element itself: `a.b.c`
over `{"a": {"b": [{"d": 9}, {"c": 2}]}}` yields `{"d": 9}`, not `2`. -/
theorem c2_counterexample_later_matching_element :
    extractSingleField ["a", "b", "c"]
      (Json.obj [("a", Json.obj [("b", Json.arr
        [Json.obj [("d", Json.num 9)], Json.obj [("c", Json.num 2)]])])]) =
      Json.obj [("d", Json.num 9)] ∧
    Json.obj [("d", Json.num 9)] ≠ Json.num 2 :=
  ⟨rfl, by simp⟩

/-- C2 amended: resolving `a.b.c` against an event whose `a.b` is an
array whose FIRST element is a dict containing `c` yields that first
element's value, whatever the later elements hold (the rebuilt query
injects `[0]`, and the manual navigator descends into `current[0]`); in
particular `{"a": {"b": [{"c": 1}, {"c": 2}]}}` yields `1`.  When the
first containing element sits at a later index, resolution instead
returns the truncated first element (see the counterexample): only index
`0` is ever consulted, not the first matching element. -/
theorem c2_first_array_element (fields : List (String × Json)) (v : Json) (rest : List Json)
    (h : lookupD "c" fields = some v) :
    extractSingleField ["a", "b", "c"]
      (Json.obj [("a", Json.obj [("b", Json.arr (Json.obj fields :: rest))])]) = v := by
  by_cases hv : v.isFNF = true
  · have hveq : v = FNF := isFNF_eq_FNF v hv
    subst hveq
    simp [extractSingleField, getTypeAtEachLevel, gteLoop, processEventByType,
      processListEvent, processDictEvent, handleListNavigation, handleDictNavigation,
      findFirstWithKey, createUniqueKey, navStopped, tmapSet, lookupD, memD, h,
      Json.pyFalsy, Json.pyTruthy, Json.isNull, Json.isFNF, FNF]
  · have hv' : v.isFNF = false := by simpa using hv
    by_cases hn : v.isNull = true
    · have hveq : v = Json.null := by cases v <;> simp [Json.isNull] at hn ⊢
      subst hveq
      simp [extractSingleField, getTypeAtEachLevel, gteLoop, processEventByType,
        processListEvent, processDictEvent, handleListNavigation, handleDictNavigation,
        findFirstWithKey, createUniqueKey, navStopped, tmapSet, lookupD, memD, h,
        Json.pyFalsy, Json.pyTruthy, Json.pyTypeName,
        isFNF_null, isFNF_bool, isFNF_num, isFNF_str, isFNF_arr, isFNF_obj,
        isNull_null, isNull_bool, isNull_num, isNull_str, isNull_arr, isNull_obj,
        intercalate_ab, indexOf_ab, FNF,
        extractDirect, jsearchPlain, jfield, jindex0,
        extractWithStructureAnalysis, constructJmespathQuery, extractListProjections,
        projAdd, filterValidKeys, tvalValid, parseKeyIndices, parseKeyIndex,
        pyStrSplit, splitOnChar, pyStrContains, pyIsDigitStr, insertAscIdx,
        buildLoop1, buildLoop2, applyProjs, TKey.toStr, Seg.toStr, jsearchSegs,
        extractWithManualIndexing, navigateQueryPath, navLoop, canNavigateDict,
        canNavigateList, canAccessListElement, addIndexToPrev]
    · have hn' : v.isNull = false := by simpa using hn
      simp [extractSingleField, getTypeAtEachLevel, gteLoop, processEventByType,
        processListEvent, processDictEvent, handleListNavigation, handleDictNavigation,
        findFirstWithKey, createUniqueKey, navStopped, tmapSet, lookupD, memD, h, hv', hn',
        Json.pyFalsy, Json.pyTruthy,
        isFNF_null, isFNF_bool, isFNF_num, isFNF_str, isFNF_arr, isFNF_obj,
        isNull_null, isNull_bool, isNull_num, isNull_str, isNull_arr, isNull_obj,
        intercalate_ab, indexOf_ab, FNF,
        extractDirect, jsearchPlain, jfield, jindex0,
        extractWithStructureAnalysis, constructJmespathQuery, extractListProjections,
        projAdd, filterValidKeys, tvalValid, parseKeyIndices, parseKeyIndex,
        pyStrSplit, splitOnChar, pyStrContains, pyIsDigitStr, insertAscIdx,
        buildLoop1, buildLoop2, applyProjs, TKey.toStr, Seg.toStr, jsearchSegs,
        extractWithManualIndexing, navigateQueryPath, navLoop, canNavigateDict,
        canNavigateList, canAccessListElement, addIndexToPrev]

/-- Witness for C2 at the specification's own example:
`{"a": {"b": [{"c": 1}, {"c": 2}]}}` under `a.b.c` yields `1`, never
`2`. -/
theorem c2_first_array_element_witness :
    extractSingleField ["a", "b", "c"]
      (Json.obj [("a", Json.obj [("b", Json.arr
        [Json.obj [("c", Json.num 1)], Json.obj [("c", Json.num 2)]])])]) = Json.num 1 :=
  c2_first_array_element [("c", Json.num 1)] (Json.num 1) [Json.obj [("c", Json.num 2)]] rfl

/-! ## C3 — missing segments and the FIELD_NOT_FOUND sentinel -/

/-- C3 counterexample: for `{"a": 5}` under `a.b` the segment `b` is
missing (the path dead-ends at the scalar `5`), yet `extract_single_field`
returns `5` — the truncated-path value recovered by the
structure-analysis strategy — not the `FIELD_NOT_FOUND` sentinel (the
analysis records `Cannot navigate further`, which the sentinel scan does
not match). -/
theorem c3_counterexample_scalar_deadend :
    extractSingleField ["a", "b"] (Json.obj [("a", Json.num 5)]) = Json.num 5 ∧
    Json.num 5 ≠ FNF :=
  ⟨rfl, by simp [FNF]⟩

theorem isFNF_FNF : FNF.isFNF = true := rfl

theorem tmapSet_any_fnf (k : TKey) (acc : TMap) :
    ((tmapSet k TVal.fnf acc).any (fun q => q.2 = TVal.fnf)) = true := by
  induction acc with
  | nil => simp [tmapSet]
  | cons p t ih =>
    obtain ⟨pk, pv⟩ := p
    by_cases hp : pk = k
    · simp [tmapSet, hp]
    · simp [tmapSet, hp, ih]

theorem gteLoop_stopped (allKeys rest : List String) (i : Nat) (cur : Json)
    (path : List String) (acc : TMap) (h : navStopped cur = true) :
    gteLoop allKeys rest i cur path acc = acc := by
  cases rest <;> simp [gteLoop, h]

theorem navStopped_of_isFNF (v : Json) (h : v.isFNF = true) : navStopped v = true := by
  simp [navStopped, h]

theorem missAt_not_stopped (cur : Json) (k : String) (h : missAt cur k = true) :
    navStopped cur = false := by
  cases cur <;> simp [missAt] at h <;> rfl

theorem navPath_stopped (cur : Json) (p : List String) (h : navStopped cur = true) :
    navPath cur p = cur := by
  induction p with
  | nil => rfl
  | cons q t ih => simp [navPath, h] at ih ⊢; exact ih

theorem processEventByType_fst (cur : Json) (k : String) (keyId : TKey)
    (path : List String) (acc : TMap) :
    (processEventByType cur k keyId path acc).1 = navStep cur k := by
  cases cur with
  | arr xs =>
    simp only [processEventByType, processListEvent, handleListNavigation, navStep]
    cases hf : findFirstWithKey k xs with
    | none => simp [FNF, Json.isFNF]
    | some w =>
      by_cases hw : w.isFNF = true
      · simp [hw, isFNF_eq_FNF w hw, isFNF_FNF]
      · simp [hw]
  | obj fs =>
    simp only [processEventByType, processDictEvent, handleDictNavigation, navStep]
    cases hf : lookupD k fs with
    | none => simp [FNF, Json.isFNF]
    | some w =>
      by_cases hw : w.isFNF = true
      · simp [hw, isFNF_eq_FNF w hw, isFNF_FNF]
      · simp [hw]
  | null => rfl
  | bool b => rfl
  | num n => rfl
  | str s => rfl

theorem processEventByType_fnf (cur : Json) (k : String) (keyId : TKey)
    (path : List String) (acc : TMap) (h : missAt cur k = true) :
    (processEventByType cur k keyId path acc).2 = tmapSet keyId TVal.fnf acc := by
  cases cur with
  | arr xs =>
    simp only [missAt, navStep, Bool.true_and] at h
    cases hf : findFirstWithKey k xs with
    | none =>
      simp [processEventByType, processListEvent, handleListNavigation, hf, FNF, Json.isFNF]
    | some w =>
      rw [hf] at h
      simp at h
      simp [processEventByType, processListEvent, handleListNavigation, hf, h]
  | obj fs =>
    simp only [missAt, navStep, Bool.true_and] at h
    cases hf : lookupD k fs with
    | none =>
      simp [processEventByType, processDictEvent, handleDictNavigation, hf, FNF, Json.isFNF]
    | some w =>
      rw [hf] at h
      simp at h
      simp [processEventByType, processDictEvent, handleDictNavigation, hf, h]
  | null => simp [missAt] at h
  | bool b => simp [missAt] at h
  | num n => simp [missAt] at h
  | str s => simp [missAt] at h

theorem gteLoop_fnf_present : ∀ (p : List String) (k : String) (rest allKeys : List String)
    (i : Nat) (cur : Json) (path : List String) (acc : TMap),
    missAt (navPath cur p) k = true →
    ((gteLoop allKeys (p ++ k :: rest) i cur path acc).any (fun q => q.2 = TVal.fnf)) = true
  | [], k, rest, allKeys, i, cur, path, acc, h => by
    have h0 : missAt cur k = true := by simpa [navPath] using h
    have hstop := missAt_not_stopped cur k h0
    have hfnf : (navStep cur k).isFNF = true := by
      have h1 := h0
      simp [missAt] at h1
      exact h1.2
    rw [List.nil_append]
    simp only [gteLoop, hstop, Bool.false_eq_true, if_false]
    rw [processEventByType_fst]
    rw [gteLoop_stopped _ _ _ _ _ _ (navStopped_of_isFNF _ hfnf)]
    rw [processEventByType_fnf _ _ _ _ _ h0]
    exact tmapSet_any_fnf _ _
  | q :: p', k, rest, allKeys, i, cur, path, acc, h => by
    by_cases hstop : navStopped cur = true
    · have hnp : navPath cur (q :: p') = cur := by
        have h1 : navPath cur (q :: p') =
            navPath (if navStopped cur then cur else navStep cur q) p' := rfl
        rw [h1, if_pos hstop, navPath_stopped _ _ hstop]
      rw [hnp] at h
      have h2 := missAt_not_stopped _ _ h
      rw [hstop] at h2
      cases h2
    · have hstop' : navStopped cur = false := by simpa using hstop
      have hnp : navPath cur (q :: p') = navPath (navStep cur q) p' := by
        have h1 : navPath cur (q :: p') =
            navPath (if navStopped cur then cur else navStep cur q) p' := rfl
        rw [h1, hstop']
        simp
      rw [hnp] at h
      simp only [List.cons_append, gteLoop, hstop', Bool.false_eq_true, if_false]
      rw [processEventByType_fst]
      exact gteLoop_fnf_present p' k rest allKeys (i + 1) (navStep cur q) (path ++ [q])
        (processEventByType cur q (createUniqueKey q i allKeys) (path ++ [q]) acc).2 h

/-- C3 amended: whenever the first failing segment `k` sits at an object
that lacks the key or at an array none of whose dict elements contains it
(`missAt` after cleanly navigating the prefix `p`),
`extract_single_field` returns the `FIELD_NOT_FOUND` sentinel whatever
lies beyond `k` — deeper segments are never consulted.  (When the path
instead dead-ends at a scalar, the sentinel is not guaranteed: the
counterexample returns the truncated-path value; and when every strategy
yields null the function returns `None`, not the sentinel.) -/
theorem c3_amended_missing_segment_sentinel (ev : Json) (p : List String) (k : String)
    (rest : List String) (hev : ev.pyFalsy = false)
    (h : missAt (navPath ev p) k = true) :
    extractSingleField (p ++ k :: rest) ev = FNF := by
  have hany := gteLoop_fnf_present p k rest (p ++ k :: rest) 0 ev [] [] h
  have hnemp : (p ++ k :: rest).isEmpty = false := by cases p <;> rfl
  simp only [extractSingleField, getTypeAtEachLevel, hev, hnemp, Bool.false_or,
    Bool.false_eq_true, if_false]
  rw [hany]
  simp

/-- Witness for C3 (amended): `a.b.z` over `{"a": {"x": 1}}` — `b` is
missing in the object at depth 1 — yields the sentinel, without the
deeper segment `z` mattering. -/
theorem c3_amended_missing_segment_sentinel_witness :
    extractSingleField ["a", "b", "z"]
      (Json.obj [("a", Json.obj [("x", Json.num 1)])]) = FNF :=
  c3_amended_missing_segment_sentinel
    (Json.obj [("a", Json.obj [("x", Json.num 1)])]) ["a"] "b" ["z"] rfl rfl

/-! ## C5 — pure-object paths: direct strategy = nested lookup -/

theorem jsearchPlain_nested : ∀ (segs : List String) (ev v : Json),
    nestedLookup segs ev = some v → jsearchPlain segs ev = v
  | [], ev, v, h => by
    simp [nestedLookup] at h
    simp [jsearchPlain, h]
  | k :: rest, ev, v, h => by
    cases ev with
    | obj fs =>
      simp only [nestedLookup] at h
      cases hl : lookupD k fs with
      | none => rw [hl] at h; cases h
      | some w =>
        rw [hl] at h
        have ih := jsearchPlain_nested rest w v h
        simp only [jsearchPlain, List.foldl_cons] at ih ⊢
        rw [show jfield k (Json.obj fs) = w by simp [jfield, hl]]
        exact ih
    | null => simp [nestedLookup] at h
    | bool b => simp [nestedLookup] at h
    | num n => simp [nestedLookup] at h
    | str s => simp [nestedLookup] at h
    | arr xs => simp [nestedLookup] at h

theorem tmapSet_tname_preserve (k : TKey) (s : String) (acc : TMap)
    (hacc : (acc.any (fun q => q.2 = TVal.fnf)) = false) :
    ((tmapSet k (TVal.tname s) acc).any (fun q => q.2 = TVal.fnf)) = false := by
  induction acc with
  | nil => simp [tmapSet]
  | cons p t ih =>
    obtain ⟨pk, pv⟩ := p
    simp at hacc
    by_cases hp : pk = k
    · simp [tmapSet, hp]
      exact hacc.2
    · simp [tmapSet, hp]
      exact ⟨hacc.1, by simpa using ih (by simpa using hacc.2)⟩

theorem gteLoop_no_fnf : ∀ (segs allKeys : List String) (i : Nat)
    (ev : Json) (path : List String) (acc : TMap) (v : Json),
    nestedLookup segs ev = some v → v.isFNF = false →
    (acc.any (fun q => q.2 = TVal.fnf)) = false →
    ((gteLoop allKeys segs i ev path acc).any (fun q => q.2 = TVal.fnf)) = false
  | [], allKeys, i, ev, path, acc, v, _, _, hacc => by simpa [gteLoop] using hacc
  | k :: rest, allKeys, i, ev, path, acc, v, h, hv, hacc => by
    cases ev with
    | obj fs =>
      simp only [nestedLookup] at h
      cases hl : lookupD k fs with
      | none => rw [hl] at h; cases h
      | some w =>
        rw [hl] at h
        have hwf : w.isFNF = false := by
          cases rest with
          | nil =>
            simp [nestedLookup] at h
            rw [← h] at hv
            exact hv
          | cons r rs =>
            cases w <;> first | rfl | simp [nestedLookup] at h
        have hstop : navStopped (Json.obj fs) = false := rfl
        simp only [gteLoop, hstop, Bool.false_eq_true, if_false]
        have hp1 : processEventByType (Json.obj fs) k (createUniqueKey k i allKeys)
            (path ++ [k]) acc =
            (w, tmapSet (createUniqueKey k i allKeys) (TVal.tname w.pyTypeName) acc) := by
          simp [processEventByType, processDictEvent, handleDictNavigation, hl, hwf]
        rw [hp1]
        cases rest with
        | nil =>
          simpa [gteLoop] using tmapSet_tname_preserve _ _ acc hacc
        | cons r rs =>
          exact gteLoop_no_fnf (r :: rs) allKeys (i + 1) w (path ++ [k]) _ v h hv
            (tmapSet_tname_preserve _ _ acc hacc)
    | null => simp [nestedLookup] at h
    | bool b => simp [nestedLookup] at h
    | num n => simp [nestedLookup] at h
    | str s => simp [nestedLookup] at h
    | arr xs => simp [nestedLookup] at h

theorem gteLoop_fnf_of_nested : ∀ (segs allKeys : List String) (i : Nat)
    (ev : Json) (path : List String) (acc : TMap) (v : Json),
    nestedLookup segs ev = some v → v.isFNF = true → segs ≠ [] →
    ((gteLoop allKeys segs i ev path acc).any (fun q => q.2 = TVal.fnf)) = true
  | [], _, _, _, _, _, _, _, _, hne => absurd rfl hne
  | k :: rest, allKeys, i, ev, path, acc, v, h, hv, _ => by
    cases ev with
    | obj fs =>
      simp only [nestedLookup] at h
      cases hl : lookupD k fs with
      | none => rw [hl] at h; cases h
      | some w =>
        rw [hl] at h
        have hstop : navStopped (Json.obj fs) = false := rfl
        simp only [gteLoop, hstop, Bool.false_eq_true, if_false]
        cases rest with
        | nil =>
          simp [nestedLookup] at h
          rw [← h] at hv
          have hp1 : processEventByType (Json.obj fs) k (createUniqueKey k i allKeys)
              (path ++ [k]) acc =
              (FNF, tmapSet (createUniqueKey k i allKeys) TVal.fnf acc) := by
            simp [processEventByType, processDictEvent, handleDictNavigation, hl, hv]
          rw [hp1]
          simpa [gteLoop] using tmapSet_any_fnf (createUniqueKey k i allKeys) acc
        | cons r rs =>
          have hwobj : w.isFNF = false := by
            cases w <;> first | rfl | simp [nestedLookup] at h
          have hp1 : processEventByType (Json.obj fs) k (createUniqueKey k i allKeys)
              (path ++ [k]) acc =
              (w, tmapSet (createUniqueKey k i allKeys) (TVal.tname w.pyTypeName) acc) := by
            simp [processEventByType, processDictEvent, handleDictNavigation, hl, hwobj]
          rw [hp1]
          exact gteLoop_fnf_of_nested (r :: rs) allKeys (i + 1) w (path ++ [k]) _ v h hv
            (by simp)
    | null => simp [nestedLookup] at h
    | bool b => simp [nestedLookup] at h
    | num n => simp [nestedLookup] at h
    | str s => simp [nestedLookup] at h
    | arr xs => simp [nestedLookup] at h

/-- C5: for a path all of whose segments exist through plain objects
(`nestedLookup` succeeds), the direct strategy
(`_extract_direct`, i.e. the query run as written) returns exactly the
plain nested dictionary lookup's value; and when that value is not
`null`, `extract_single_field` short-circuits on strategy 1 and returns
the same value. -/
theorem c5_direct_strategy_equals_nested_lookup (segs : List String) (ev v : Json)
    (h : nestedLookup segs ev = some v) (hne : segs ≠ []) :
    extractDirect segs ev = v ∧
    (v.isNull = false → extractSingleField segs ev = v) := by
  refine ⟨jsearchPlain_nested segs ev v h, ?_⟩
  intro hvn
  obtain ⟨k, rest, rfl⟩ : ∃ k rest, segs = k :: rest := by
    cases segs with
    | nil => exact absurd rfl hne
    | cons a b => exact ⟨a, b, rfl⟩
  obtain ⟨fs, rfl⟩ : ∃ fs, ev = Json.obj fs := by
    cases ev with
    | obj fs => exact ⟨fs, rfl⟩
    | null => simp [nestedLookup] at h
    | bool b => simp [nestedLookup] at h
    | num n => simp [nestedLookup] at h
    | str s => simp [nestedLookup] at h
    | arr xs => simp [nestedLookup] at h
  have hfs : fs ≠ [] := by
    intro hnil
    subst hnil
    simp [nestedLookup, lookupD] at h
  have hfalsy : (Json.obj fs).pyFalsy = false := by
    simp [Json.pyFalsy, Json.pyTruthy, hfs]
  have hnemp : (k :: rest).isEmpty = false := rfl
  by_cases hvf : v.isFNF = true
  · have hveq : v = FNF := isFNF_eq_FNF v hvf
    have hany := gteLoop_fnf_of_nested (k :: rest) (k :: rest) 0 (Json.obj fs) [] [] v h hvf
      (by simp)
    simp only [extractSingleField, getTypeAtEachLevel, hfalsy, hnemp, Bool.false_or,
      Bool.false_eq_true, if_false]
    rw [hany]
    simp [hveq]
  · have hvf' : v.isFNF = false := by simpa using hvf
    have hnofnf := gteLoop_no_fnf (k :: rest) (k :: rest) 0 (Json.obj fs) [] [] v h hvf'
      (by simp)
    have hdir : extractDirect (k :: rest) (Json.obj fs) = v := jsearchPlain_nested _ _ _ h
    simp only [extractSingleField, getTypeAtEachLevel, hfalsy, hnemp, Bool.false_or,
      Bool.false_eq_true, if_false]
    rw [hnofnf]
    simp only [Bool.false_eq_true, if_false, hdir, hvn, Bool.not_false, if_true]

/-- Witness for C5: `a.b` over the pure-object event
`{"a": {"b": "x"}}` — both the direct strategy and the full resolution
equal the nested lookup's `"x"`. -/
theorem c5_direct_strategy_equals_nested_lookup_witness :
    extractDirect ["a", "b"] (Json.obj [("a", Json.obj [("b", Json.str "x")])]) =
      Json.str "x" ∧
    extractSingleField ["a", "b"] (Json.obj [("a", Json.obj [("b", Json.str "x")])]) =
      Json.str "x" := by
  have h := c5_direct_strategy_equals_nested_lookup ["a", "b"]
    (Json.obj [("a", Json.obj [("b", Json.str "x")])]) (Json.str "x") rfl (by simp)
  exact ⟨h.1, h.2 rfl⟩

/-! ## C8 — strategy factory: unknown names and idempotency -/

theorem initializeDefaults_initialized (s : FactoryState) :
    (initializeDefaultStrategies s).initialized = true := by
  unfold initializeDefaultStrategies
  by_cases h : s.initialized <;> simp [h]

theorem initializeDefaults_of_initialized (s : FactoryState) (h : s.initialized = true) :
    initializeDefaultStrategies s = s := by
  unfold initializeDefaultStrategies
  simp [h]

theorem sfSet_sfSet (k : String) (v : StrategyClass) (l : List (String × StrategyClass)) :
    sfSet k v (sfSet k v l) = sfSet k v l := by
  induction l with
  | nil => simp [sfSet]
  | cons p t ih =>
    obtain ⟨pk, pv⟩ := p
    by_cases hpk : pk = k
    · simp [sfSet, hpk]
    · simp [sfSet, hpk, ih]

theorem sfSet_of_lookup_eq (k : String) (v : StrategyClass) (l : List (String × StrategyClass))
    (h : sfLookup k l = some v) : sfSet k v l = l := by
  induction l with
  | nil => simp [sfLookup] at h
  | cons p t ih =>
    obtain ⟨pk, pv⟩ := p
    by_cases hpk : pk = k
    · subst hpk
      simp [sfLookup] at h
      simp [sfSet, h]
    · simp [sfLookup, hpk] at h
      simp [sfSet, hpk, ih h]

/-- C8: `create_strategy` on a name whose lowercased form is not
registered returns `None` rather than raising; re-running
`_initialize_default_strategies` is a no-op; re-`register`ing any
(name, class) pair twice equals registering it once; and re-registering
a pair the (initialized) registry already holds changes nothing. -/
theorem c8_factory_null_and_idempotent (s : FactoryState) (name : String) :
    (sfLookup (pyLower name) (initializeDefaultStrategies s).strategies = none →
      (createStrategyF (some name) s).2 = none) ∧
    initializeDefaultStrategies (initializeDefaultStrategies s) =
      initializeDefaultStrategies s ∧
    (∀ c, registerStrategy name c (registerStrategy name c s) =
      registerStrategy name c s) ∧
    (∀ c, sfLookup (pyLower name) (initializeDefaultStrategies s).strategies = some c →
      registerStrategy name c (initializeDefaultStrategies s) =
        initializeDefaultStrategies s) := by
  refine ⟨?_, ?_, ?_, ?_⟩
  · intro h
    unfold createStrategyF
    simpa using h
  · exact initializeDefaults_of_initialized _ (initializeDefaults_initialized s)
  · intro c
    unfold registerStrategy
    rw [initializeDefaults_of_initialized _ (by simp [initializeDefaults_initialized])]
    simp [sfSet_sfSet]
  · intro c h
    unfold registerStrategy
    rw [initializeDefaults_of_initialized _ (initializeDefaults_initialized s)]
    have := sfSet_of_lookup_eq (pyLower name) c
      (initializeDefaultStrategies s).strategies h
    simp [this]

/-- Witness for C8 at concrete inputs: `"NoPe"` is unknown (from the
empty state) and yields `None`; initialization and re-registration are
no-ops there. -/
theorem c8_factory_null_and_idempotent_witness :
    (createStrategyF (some "NoPe") ⟨[], false⟩).2 = none ∧
    initializeDefaultStrategies (initializeDefaultStrategies ⟨[], false⟩) =
      initializeDefaultStrategies ⟨[], false⟩ ∧
    registerStrategy "NoPe" .setValue (registerStrategy "NoPe" .setValue ⟨[], false⟩) =
      registerStrategy "NoPe" .setValue ⟨[], false⟩ := by
  refine ⟨?_, ?_, ?_⟩
  · exact (c8_factory_null_and_idempotent ⟨[], false⟩ "NoPe").1 rfl
  · exact (c8_factory_null_and_idempotent ⟨[], false⟩ "NoPe").2.1
  · exact (c8_factory_null_and_idempotent ⟨[], false⟩ "NoPe").2.2.1 .setValue

/-! ## C9 — the specification's end-to-end builder scenario -/

/-- C9 (code bug): on the specification's own scenario event the session
id is present and resolvable (`"S1"`), yet `with_session_data` raises a
`ValueError`: the `tidnid` query pipes a `null` into
`join('-', [tipo || type, numero || number])`, and jmespath's `join`
type-checks its argument and raises `JMESPathTypeError` for events that
carry no `documento`/`client.documentClient` — so the claimed chain
`with_event → with_session_data → with_service_data → build` never
reaches the service stage, and no entity is produced. -/
theorem c9_builder_scenario_raises :
    jsearchPlain sessionIdPath (unflattenJson c9Event) = Json.str "S1" ∧
    withSessionData (withEvent {} c9Event) none =
      .error "Error al extraer datos de sesión: JMESPathTypeError: join expected array-string" :=
  ⟨rfl, rfl⟩

/-! ## C1 — parameter extraction: ordering, and dropped unresolved
parameters -/

/-- C1 counterexample: two declared parameters `0` and `1` where
parameter `0`'s strategy yields nothing.  The claim demands the
two-element tuple `(null, "v")`; the code returns the empty tuple — the
unresolved parameter is dropped, and the shrunken length also truncates
away the resolved parameter `1`. -/
theorem c1_counterexample_dropped_parameter :
    extractParameters (fun v : Json => v) [("0", Json.null), ("1", Json.str "v")] = [] ∧
    ([] : List Json) ≠ [Json.null, Json.str "v"] :=
  ⟨rfl, by simp⟩

theorem lookupD_append_none (k : String) (l₁ l₂ : List (String × Json))
    (h1 : lookupD k l₁ = none) (h2 : lookupD k l₂ = none) :
    lookupD k (l₁ ++ l₂) = none := by
  induction l₁ with
  | nil => simpa using h2
  | cons q t ih =>
    obtain ⟨qk, qv⟩ := q
    by_cases hq : qk = k
    · simp [lookupD, hq] at h1
    · simp [lookupD, hq] at h1 ⊢
      exact ih h1

theorem extractFold_eq {α : Type} (f : α → Json) :
    ∀ (cfgs : List (String × α)) (acc : List (String × Json)),
    (∀ p ∈ cfgs, (f p.2).isNull = false) →
    (∀ p ∈ cfgs, lookupD p.1 acc = none) →
    (cfgs.map Prod.fst).Nodup →
    cfgs.foldl (fun acc p =>
      let value := f p.2
      if value.isNull then acc else dictSet p.1 value acc) acc =
      acc ++ cfgs.map (fun p => (p.1, f p.2))
  | [], acc, _, _, _ => by simp
  | (k, c) :: rest, acc, hnn, hdisj, hnd => by
    have hknn : (f c).isNull = false := hnn (k, c) (.head _)
    have hkacc : lookupD k acc = none := hdisj (k, c) (.head _)
    have hnd0 : (k :: rest.map Prod.fst).Nodup := by simpa using hnd
    have hknotin : k ∉ rest.map Prod.fst := (List.nodup_cons.mp hnd0).1
    have hnd' : (rest.map Prod.fst).Nodup := (List.nodup_cons.mp hnd0).2
    have hkne : ∀ p ∈ rest, ¬p.1 = k := by
      intro p hp hpk
      exact hknotin (by rw [← hpk]; exact List.mem_map_of_mem Prod.fst hp)
    rw [List.foldl_cons]
    have hstep : (let value := f (k, c).2; if value.isNull = true then acc
        else dictSet (k, c).1 value acc) = acc ++ [(k, f c)] := by
      show (if (f c).isNull = true then acc else dictSet k (f c) acc) = acc ++ [(k, f c)]
      rw [hknn]
      simpa using dictSet_of_lookupD_none k (f c) acc hkacc
    have hdisj' : ∀ p ∈ rest, lookupD p.1 (acc ++ [(k, f c)]) = none := by
      intro p hp
      refine lookupD_append_none _ _ _ (hdisj p (.tail _ hp)) ?_
      have hne : ¬k = p.1 := fun hh => (hkne p hp) hh.symm
      simp [lookupD, hne]
    have hrec := extractFold_eq f rest (acc ++ [(k, f c)])
      (fun p hp => hnn p (.tail _ hp)) hdisj' hnd'
    rw [hstep, hrec, List.append_assoc]
    simp

theorem orderParameters_range {g : Nat → Json} :
    ∀ (m : Nat) (ev : List (String × Json)) (acc : List Json),
    (∀ i < m, lookupD (toString i) ev = some (g i) ∧ (g i).isNull = false) →
    (List.range m).foldl (fun ordered i =>
      match lookupD (toString i) ev with
      | some v => if v.isNull then ordered else ordered ++ [sqlParamValue v]
      | none => ordered) acc =
      acc ++ (List.range m).map (fun i => sqlParamValue (g i))
  | 0, ev, acc, _ => by simp
  | m + 1, ev, acc, h => by
    rw [List.range_succ, List.foldl_append, List.map_append]
    have hm := h m (by omega)
    have ih := orderParameters_range (g := g) m ev acc (fun i hi => h i (by omega))
    rw [ih]
    simp [hm.1, hm.2]

/-- C1 amended: when the keys are exactly `"0"… str(n-1)` (in any map
order) and every parameter's strategy yields a value, the tuple has
exactly one entry per declared parameter, in ascending index order, with
composite values serialised; a parameter that resolves to nothing is
instead dropped — and, the iteration running over
`range(len(extracted_values))`, its absence also truncates the tail
(shown by the counterexample). -/
theorem c1_amended_ordered_when_all_resolve {α : Type} (f : α → Json)
    (cfgs : List (String × α)) (n : Nat)
    (hperm : (cfgs.map Prod.fst).Perm ((List.range n).map toString))
    (hnodup : (cfgs.map Prod.fst).Nodup)
    (hnn : ∀ p ∈ cfgs, (f p.2).isNull = false) :
    extractParameters f cfgs = (List.range n).map (fun i =>
      sqlParamValue (((lookupA (toString i) cfgs).map f).getD Json.null)) := by
  unfold extractParameters
  rw [extractFold_eq f cfgs [] hnn (by intro p _; simp [lookupD]) hnodup]
  simp only [List.nil_append]
  unfold orderParameters
  have hlen : (cfgs.map (fun p => (p.1, f p.2))).length = n := by
    have h1 := hperm.length_eq
    simp at h1 ⊢
    omega
  rw [hlen]
  have hval : ∀ i < n,
      lookupD (toString i) (cfgs.map (fun p => (p.1, f p.2))) =
        some ((((lookupA (toString i) cfgs).map f).getD Json.null)) ∧
      ((((lookupA (toString i) cfgs).map f).getD Json.null)).isNull = false := by
    intro i hi
    have hmem : toString i ∈ cfgs.map Prod.fst := by
      apply hperm.mem_iff.mpr
      exact List.mem_map_of_mem toString (List.mem_range.mpr hi)
    have hsome := lookupA_isSome_of_mem (toString i) cfgs hmem
    obtain ⟨c, hc⟩ := Option.isSome_iff_exists.mp hsome
    have hcm := lookupA_mem (toString i) c cfgs hc
    have hcnn := hnn (toString i, c) hcm
    rw [lookupD_map_pair, hc]
    simp at hcnn ⊢
    exact hcnn
  have := orderParameters_range
    (g := fun i => (((lookupA (toString i) cfgs).map f).getD Json.null)) n
    (cfgs.map (fun p => (p.1, f p.2))) [] hval
  simpa using this

/-- Witness for C1 (amended) at a concrete out-of-order configuration:
keys `"1", "0"` with resolving strategies yield the index-ordered
tuple. -/
theorem c1_amended_ordered_when_all_resolve_witness :
    extractParameters (fun v : Json => v) [("1", Json.str "b"), ("0", Json.str "a")] =
      [Json.str "a", Json.str "b"] := by
  have h := c1_amended_ordered_when_all_resolve (fun v : Json => v)
    [("1", Json.str "b"), ("0", Json.str "a")] 2
    (by decide) (by decide) (by decide)
  rw [h]
  rfl

/-! ## C4 — rule ordering and later-rule-wins merge -/

theorem insertRuleDesc_perm (x : RuleCfg) (l : List RuleCfg) :
    (insertRuleDesc x l).Perm (x :: l) := by
  induction l with
  | nil => simp [insertRuleDesc]
  | cons y ys ih =>
    by_cases h : rulePriority x < rulePriority y
    · simp only [insertRuleDesc, h, if_true]
      exact (List.Perm.cons y ih).trans (List.Perm.swap x y ys)
    · simp [insertRuleDesc, h]

theorem sortRulesDesc_perm (l : List RuleCfg) : (sortRulesDesc l).Perm l := by
  induction l with
  | nil => simp [sortRulesDesc]
  | cons x t ih =>
    have h1 : sortRulesDesc (x :: t) = insertRuleDesc x (sortRulesDesc t) := rfl
    rw [h1]
    exact (insertRuleDesc_perm x (sortRulesDesc t)).trans (.cons x ih)

theorem insertRuleDesc_mem (z x : RuleCfg) (l : List RuleCfg)
    (h : z ∈ insertRuleDesc x l) : z = x ∨ z ∈ l := by
  have := (insertRuleDesc_perm x l).mem_iff.mp h
  simpa using this

theorem insertRuleDesc_sorted (x : RuleCfg) (l : List RuleCfg)
    (h : l.Pairwise (fun a b => rulePriority b ≤ rulePriority a)) :
    (insertRuleDesc x l).Pairwise (fun a b => rulePriority b ≤ rulePriority a) := by
  induction l with
  | nil => simp [insertRuleDesc]
  | cons y ys ih =>
    rcases List.pairwise_cons.mp h with ⟨hy, hys⟩
    by_cases hlt : rulePriority x < rulePriority y
    · simp only [insertRuleDesc, hlt, if_true]
      refine List.pairwise_cons.mpr ⟨?_, ih hys⟩
      intro z hz
      rcases insertRuleDesc_mem z x ys hz with rfl | hz'
      · omega
      · exact hy z hz'
    · simp only [insertRuleDesc, hlt, if_false]
      refine List.pairwise_cons.mpr ⟨?_, h⟩
      intro z hz
      simp at hz
      rcases hz with rfl | hz'
      · omega
      · have := hy z hz'
        omega

theorem sortRulesDesc_sorted (l : List RuleCfg) :
    (sortRulesDesc l).Pairwise (fun a b => rulePriority b ≤ rulePriority a) := by
  induction l with
  | nil => simp [sortRulesDesc]
  | cons x t ih => exact insertRuleDesc_sorted x (sortRulesDesc t) ih

theorem insertRuleDesc_filter_priority (x : RuleCfg) (l : List RuleCfg) (p : Int) :
    (insertRuleDesc x l).filter (fun r => rulePriority r = p) =
      if rulePriority x = p then x :: l.filter (fun r => rulePriority r = p)
      else l.filter (fun r => rulePriority r = p) := by
  induction l with
  | nil => by_cases hx : rulePriority x = p <;> simp [insertRuleDesc, List.filter, hx]
  | cons y ys ih =>
    by_cases hlt : rulePriority x < rulePriority y
    · simp only [insertRuleDesc, hlt, if_true]
      by_cases hx : rulePriority x = p
      · have hy : ¬rulePriority y = p := by omega
        simp [List.filter_cons, hx, hy, ih]
      · by_cases hy : rulePriority y = p <;> simp [List.filter_cons, hx, hy, ih]
    · simp only [insertRuleDesc, hlt, if_false]
      by_cases hx : rulePriority x = p <;> simp [List.filter_cons, hx]

theorem sortRulesDesc_filter_priority (l : List RuleCfg) (p : Int) :
    (sortRulesDesc l).filter (fun r => rulePriority r = p) =
      l.filter (fun r => rulePriority r = p) := by
  induction l with
  | nil => rfl
  | cons x t ih =>
    have h1 : sortRulesDesc (x :: t) = insertRuleDesc x (sortRulesDesc t) := rfl
    rw [h1, insertRuleDesc_filter_priority]
    by_cases hx : rulePriority x = p <;> simp [List.filter_cons, hx, ih]

theorem lookupD_append_cases (f : String) (l₁ l₂ : List (String × Json)) :
    lookupD f (l₁ ++ l₂) =
      match lookupD f l₁ with
      | some v => some v
      | none => lookupD f l₂ := by
  induction l₁ with
  | nil => simp [lookupD]
  | cons q t ih =>
    obtain ⟨qk, qv⟩ := q
    by_cases hq : qk = f <;> simp [lookupD, hq, ih]

theorem lookupD_dictUpdate (f : String) (m d : List (String × Json)) :
    lookupD f (dictUpdate m d) =
      match lookupD f d.reverse with
      | some v => some v
      | none => lookupD f m := by
  induction d generalizing m with
  | nil => simp [dictUpdate, lookupD]
  | cons q t ih =>
    obtain ⟨qk, qv⟩ := q
    have h1 : dictUpdate m ((qk, qv) :: t) = dictUpdate (dictSet qk qv m) t := rfl
    rw [h1, ih]
    have h2 : ((qk, qv) :: t).reverse = t.reverse ++ [(qk, qv)] := by simp
    rw [h2, lookupD_append_cases]
    cases lookupD f t.reverse with
    | some w => rfl
    | none =>
      simp only []
      rw [lookupD_dictSet]
      by_cases hq : qk = f <;> simp [lookupD, hq]

theorem getLast?_cons_cases {α : Type} (a : α) (l : List α) :
    (a :: l).getLast? =
      match l.getLast? with
      | some v => some v
      | none => some a := by
  cases l with
  | nil => simp
  | cons b t =>
    rw [List.getLast?_cons_cons]
    cases hl : (b :: t).getLast? with
    | some v => rfl
    | none => simp at hl

theorem lookupD_foldl_update (f : String) :
    ∀ (ds : List (List (String × Json))) (init : List (String × Json)),
    lookupD f (ds.foldl dictUpdate init) =
      match (ds.filterMap (fun d => lookupD f d.reverse)).getLast? with
      | some v => some v
      | none => lookupD f init
  | [], init => by simp
  | d :: t, init => by
    have h1 : (d :: t).foldl dictUpdate init = t.foldl dictUpdate (dictUpdate init d) := rfl
    rw [h1, lookupD_foldl_update f t (dictUpdate init d)]
    cases hd : lookupD f d.reverse with
    | none =>
      rw [List.filterMap_cons]
      simp only [hd]
      cases (t.filterMap (fun d => lookupD f d.reverse)).getLast? with
      | some v => rfl
      | none => simp [lookupD_dictUpdate, hd]
    | some c =>
      rw [List.filterMap_cons]
      simp only [hd, getLast?_cons_cases]
      cases (t.filterMap (fun d => lookupD f d.reverse)).getLast? with
      | some v => rfl
      | none => simp [lookupD_dictUpdate, hd]

theorem processFold_eq (F : CreateStrategy) (ev : Json) (t : Int) :
    ∀ (l : List RuleCfg) (init : List (String × Json)),
    l.foldl (fun results r =>
      if isApplicable r ev t then dictUpdate results (applyRule F r ev) else results) init =
      ((l.filter (fun r => isApplicable r ev t)).map (fun r => applyRule F r ev)).foldl
        dictUpdate init
  | [], init => rfl
  | r :: l, init => by
    by_cases hr : isApplicable r ev t = true
    · simp only [List.foldl_cons, List.filter_cons, hr, if_true, List.map_cons,
        List.foldl_cons]
      exact processFold_eq F ev t l (dictUpdate init (applyRule F r ev))
    · have hr' : isApplicable r ev t = false := by simpa using hr
      simp only [List.foldl_cons, List.filter_cons, hr', Bool.false_eq_true, if_false]
      exact processFold_eq F ev t l init

/-- C4: `process_event` evaluates the rules in stable descending
priority order — the sorted list is a permutation of the configuration,
pairwise descending on `config.get('priority', 0)`, and rules of equal
priority keep their configuration order (the priority-`p` sublist is
untouched) — and merges applicable rules' results with
`results.update(...)`, so the value finally bound to a field is the one
set by the last applicable rule (in evaluation order) that sets it:
later-rule-wins overwrite semantics, for every strategy factory. -/
theorem c4_priority_sort_and_merge (F : CreateStrategy) (rules : List RuleCfg) (ev : Json) (t : Int) :
    (sortRulesDesc rules).Perm rules ∧
    (sortRulesDesc rules).Pairwise (fun a b => rulePriority b ≤ rulePriority a) ∧
    (∀ p : Int, (sortRulesDesc rules).filter (fun r => rulePriority r = p) =
      rules.filter (fun r => rulePriority r = p)) ∧
    (∀ fld : String, lookupD fld (processEvent F rules ev t) =
      ((((sortRulesDesc rules).filter (fun r => isApplicable r ev t)).map
          (fun r => applyRule F r ev)).filterMap
        (fun d => lookupD fld d.reverse)).getLast?) := by
  refine ⟨sortRulesDesc_perm rules, sortRulesDesc_sorted rules,
    sortRulesDesc_filter_priority rules, ?_⟩
  intro fld
  unfold processEvent
  rw [processFold_eq, lookupD_foldl_update]
  cases ((((sortRulesDesc rules).filter (fun r => isApplicable r ev t)).map
      (fun r => applyRule F r ev)).filterMap (fun d => lookupD fld d.reverse)).getLast? with
  | some v => rfl
  | none => simp [lookupD]

end ObsLayer
